import Mathlib

/-!
Verification of the todo-backend core: data model, repository query
construction, service-layer validation and error propagation, embedded
shallowly from app/models/todo.py, app/repositories/todo.py,
app/schemas/todo.py and app/services/todo.py.

Python strings are modelled as lists of characters (code points); the
Python method str.strip is modelled by pstrip.  Timestamps (datetime
values) are modelled as integers; the database clock func.now() becomes
an explicit argument of each mutating operation.  The database table is
modelled as a list of rows in insertion order together with the next
value of the id sequence.  SQL ordering with equal keys is embedded as a
stable sort (insertionSort), and SQL comparisons against NULL are false,
as in the engine.
-/

deriving instance DecidableEq for Except

namespace TodoApp

open List

/-- Python strings as lists of characters. -/
abbrev PyStr := List Char

/-- Model of the Python method str.strip: drop whitespace from both ends. -/
def pstrip (s : PyStr) : PyStr :=
  ((s.dropWhile Char.isWhitespace).reverse.dropWhile Char.isWhitespace).reverse

/-- A row of the todos table (app/models/todo.py, class Todo). -/
structure Todo where
  id : Int
  title : PyStr
  description : Option PyStr
  completed : Bool
  end_date : Option Int
  created_at : Int
  updated_at : Int
deriving Repr, DecidableEq

/-- The todos table: rows in insertion order plus the id sequence. -/
structure TodoStore where
  rows : List Todo
  nextId : Int
deriving Repr, DecidableEq

/-- Payload of a create request after pydantic validation (schemas.TodoCreate). -/
structure TodoCreate where
  title : PyStr
  description : Option PyStr
  completed : Bool
  end_date : Option Int
deriving Repr, DecidableEq

/-- Payload of a partial update (schemas.TodoUpdate).  The outer Option
records whether the field was supplied at all (pydantic exclude_unset);
the inner value is the supplied value, which may itself be null. -/
structure TodoUpdate where
  title : Option (Option PyStr)
  description : Option (Option PyStr)
  completed : Option (Option Bool)
  end_date : Option (Option Int)
deriving Repr, DecidableEq

/-- Search parameters (schemas.TodoSearchParams). -/
structure TodoSearchParams where
  completed : Option Bool
  end_date_from : Option Int
  end_date_to : Option Int
  skip : Int
  limit : Int
deriving Repr, DecidableEq

/-- The three error kinds raised by the service layer: TodoValidationError,
TodoNotFoundError and TodoDatabaseError (app/services/todo.py). -/
inductive Err where
  | validation (msg : String)
  | notFound (id : Int)
  | database (msg : String)
deriving Repr, DecidableEq

def msgTitleEmptyModel : String := "Title cannot be empty or just whitespace"
def msgTitleLong : String := "Title cannot exceed 200 characters"
def msgDescLong : String := "Description cannot exceed 1000 characters"
def msgTitleEmptySvc : String := "Title cannot be empty or whitespace only"
def msgAtLeastOne : String := "At least one field must be provided for update"
def msgIdPositive : String := "Todo ID must be a positive integer"
def msgSkipNonneg : String := "Skip parameter must be a non-negative integer"
def msgLimitPositive : String := "Limit parameter must be a positive integer"
def msgLimitCeiling : String := "Limit parameter cannot exceed 1000"
def msgDateRange : String := "end_date_from must be before or equal to end_date_to"
def msgMinLen : String := "String should have at least 1 character"
def msgMaxLenTitle : String := "String should have at most 200 characters"
def msgMaxLenDesc : String := "String should have at most 1000 characters"
def msgNotNullCompleted : String := "null value in column completed violates not-null constraint"
def msgUnexpected : String := "Unexpected error occurred while updating todo item"

/-- Column-level validator for title (models/todo.py, validates title):
rejects a missing or whitespace-only value and a raw length over 200,
and stores the stripped value. -/
def Todo.validate_title (title : Option PyStr) : Except String PyStr :=
  match title with
  | none => .error msgTitleEmptyModel
  | some s =>
    if pstrip s = [] then .error msgTitleEmptyModel
    else if s.length > 200 then .error msgTitleLong
    else .ok (pstrip s)

/-- Column-level validator for description (models/todo.py, validates
description): rejects a raw length over 1000, strips, and normalizes an
empty result to null. -/
def Todo.validate_description (d : Option PyStr) : Except String (Option PyStr) :=
  match d with
  | none => .ok none
  | some s =>
    if s.length > 1000 then .error msgDescLong
    else if pstrip s = [] then .ok none
    else .ok (some (pstrip s))

/-- Construction of a TodoCreate payload through pydantic (schemas.TodoBase):
field constraints min_length 1 and max_length 200 on the raw title and
max_length 1000 on the raw description run first, then the field
validators strip the title and normalize the description. -/
def TodoCreate.validate (title : PyStr) (description : Option PyStr)
    (completed : Bool) (end_date : Option Int) : Except String TodoCreate :=
  if title.length < 1 then .error msgMinLen
  else if title.length > 200 then .error msgMaxLenTitle
  else if pstrip title = [] then .error msgTitleEmptyModel
  else
    match description with
    | none => .ok ⟨pstrip title, none, completed, end_date⟩
    | some de =>
      if de.length > 1000 then .error msgMaxLenDesc
      else if pstrip de = [] then .ok ⟨pstrip title, none, completed, end_date⟩
      else .ok ⟨pstrip title, some (pstrip de), completed, end_date⟩

/-- Ordering used by the repository queries: ORDER BY created_at DESC. -/
def todoLe (a b : Todo) : Prop := b.created_at ≤ a.created_at

instance : DecidableRel todoLe := fun a b =>
  inferInstanceAs (Decidable (b.created_at ≤ a.created_at))

instance : IsTotal Todo todoLe :=
  ⟨fun a b => Int.le_total b.created_at a.created_at⟩

instance : IsTrans Todo todoLe :=
  ⟨fun _ _ _ h1 h2 => le_trans h2 h1⟩

/-- Embedding of ORDER BY created_at DESC over rows in insertion order:
a stable sort on the created_at key. -/
def orderByCreatedAtDesc (l : List Todo) : List Todo :=
  List.insertionSort todoLe l

/-- Boolean match of one row against the search filters
(repositories/todo.py, search_todos).  A filter left as None imposes no
constraint; the deadline bounds are inclusive, and a NULL end_date
compares as false, as in SQL. -/
def matchesSearch (p : TodoSearchParams) (t : Todo) : Bool :=
  (match p.completed with
   | none => true
   | some c => t.completed == c) &&
  (match p.end_date_from with
   | none => true
   | some lo =>
     match t.end_date with
     | none => false
     | some e => lo ≤ e) &&
  (match p.end_date_to with
   | none => true
   | some hi =>
     match t.end_date with
     | none => false
     | some e => e ≤ hi)

namespace TodoRepository

/-- Repository create (repositories/todo.py): construct the row (running
the column validators), append it and advance the id sequence.  A
validator failure surfaces as a database-layer error and leaves the
committed store unchanged. -/
def create (s : TodoStore) (d : TodoCreate) (now : Int) :
    Except Err Todo × TodoStore :=
  match Todo.validate_title (some d.title), Todo.validate_description d.description with
  | .ok ti, .ok de =>
    let t : Todo := ⟨s.nextId, ti, de, d.completed, d.end_date, now, now⟩
    (.ok t, ⟨s.rows ++ [t], s.nextId + 1⟩)
  | .error m, _ => (.error (.database m), s)
  | .ok _, .error m => (.error (.database m), s)

/-- Repository lookup by primary key (repositories/todo.py, get_by_id). -/
def get_by_id (s : TodoStore) (todo_id : Int) : Option Todo :=
  s.rows.find? (fun t => t.id == todo_id)

/-- Repository listing (repositories/todo.py, get_all): order by
created_at descending, then apply offset and limit. -/
def get_all (s : TodoStore) (skip limit : Nat) : List Todo :=
  ((orderByCreatedAtDesc s.rows).drop skip).take limit

/-- Setattr of a supplied title on a row, through the column validator. -/
def setTitle (t : Todo) (d : TodoUpdate) : Except String Todo :=
  match d.title with
  | none => .ok t
  | some v => (Todo.validate_title v).map (fun ti => { t with title := ti })

/-- Setattr of a supplied description on a row, through the column validator. -/
def setDescription (t : Todo) (d : TodoUpdate) : Except String Todo :=
  match d.description with
  | none => .ok t
  | some v => (Todo.validate_description v).map (fun de => { t with description := de })

/-- Setattr of a supplied completed flag; an explicit null violates the
NOT NULL constraint of the column at commit. -/
def setCompleted (t : Todo) (d : TodoUpdate) : Except String Todo :=
  match d.completed with
  | none => .ok t
  | some none => .error msgNotNullCompleted
  | some (some b) => .ok { t with completed := b }

/-- Setattr of a supplied end_date (nullable, no validator). -/
def setEndDate (t : Todo) (d : TodoUpdate) : Todo :=
  match d.end_date with
  | none => t
  | some v => { t with end_date := v }

/-- Application of the supplied update fields to a row by setattr, in
field order, running the column validators (repositories/todo.py,
update). -/
def applyUpdate (t : Todo) (d : TodoUpdate) : Except String Todo :=
  match setTitle t d with
  | .error m => .error m
  | .ok t1 =>
    match setDescription t1 d with
    | .error m => .error m
    | .ok t2 =>
      match setCompleted t2 d with
      | .error m => .error m
      | .ok t3 => .ok (setEndDate t3 d)

/-- Repository update (repositories/todo.py, update): fetch the row and
apply the supplied fields by setattr.  At commit, the unit of work
compares each attribute with its stored value: when the applied row
equals the stored row (a net no-op), no UPDATE statement is emitted, the
onupdate clock never fires, and the row, including updated_at, and the
store are unchanged; otherwise the UPDATE fires, updated_at is stamped
with the commit clock and the changed row is committed.  A missing row
returns None; a failure leaves the committed store unchanged. -/
def update (s : TodoStore) (todo_id : Int) (d : TodoUpdate) (now : Int) :
    Except Err (Option Todo) × TodoStore :=
  match get_by_id s todo_id with
  | none => (.ok none, s)
  | some t =>
    match applyUpdate t d with
    | .error m => (.error (.database m), s)
    | .ok t0 =>
      if t0 = t then (.ok (some t0), s)
      else
        let t1 := { t0 with updated_at := now }
        (.ok (some t1), ⟨s.rows.map (fun r => if r.id = todo_id then t1 else r), s.nextId⟩)

/-- Repository delete (repositories/todo.py, delete): hard delete,
returning False when the row is absent. -/
def delete (s : TodoStore) (todo_id : Int) : Bool × TodoStore :=
  match get_by_id s todo_id with
  | none => (false, s)
  | some _ => (true, ⟨s.rows.filter (fun r => !(r.id == todo_id)), s.nextId⟩)

/-- Repository search (repositories/todo.py, search_todos): filter
conjunctively, order by created_at descending, apply offset and limit. -/
def search_todos (s : TodoStore) (p : TodoSearchParams) : List Todo :=
  ((orderByCreatedAtDesc (s.rows.filter (matchesSearch p))).drop p.skip.toNat).take p.limit.toNat

end TodoRepository

namespace TodoService

/-- Service-side create validation (services/todo.py, validate todo create). -/
def validate_todo_create (d : TodoCreate) : Except String Unit :=
  if pstrip d.title = [] then .error msgTitleEmptySvc
  else if (pstrip d.title).length > 200 then .error msgTitleLong
  else
    match d.description with
    | some de => if de.length > 1000 then .error msgDescLong else .ok ()
    | none => .ok ()

/-- Service-side update validation (services/todo.py, validate todo
update): at least one supplied field, then title and description checks
on supplied non-null values. -/
def validate_todo_update (d : TodoUpdate) : Except String Unit :=
  if d.title.isNone && d.description.isNone && d.completed.isNone && d.end_date.isNone then
    .error msgAtLeastOne
  else
    match (match d.title with
           | some (some ti) =>
             if pstrip ti = [] then Except.error msgTitleEmptySvc
             else if (pstrip ti).length > 200 then Except.error msgTitleLong
             else Except.ok ()
           | _ => Except.ok ()) with
    | .error m => .error m
    | .ok _ =>
      match d.description with
      | some (some de) => if de.length > 1000 then .error msgDescLong else .ok ()
      | _ => .ok ()

/-- Service-side id validation (services/todo.py, validate todo id). -/
def validate_todo_id (todo_id : Int) : Except String Unit :=
  if todo_id ≤ 0 then .error msgIdPositive else .ok ()

/-- Service-side pagination validation (services/todo.py). -/
def validate_pagination_params (skip limit : Int) : Except String Unit :=
  if skip < 0 then .error msgSkipNonneg
  else if limit ≤ 0 then .error msgLimitPositive
  else if limit > 1000 then .error msgLimitCeiling
  else .ok ()

/-- Service-side search-parameter validation (services/todo.py). -/
def validate_search_params (p : TodoSearchParams) : Except String Unit :=
  match validate_pagination_params p.skip p.limit with
  | .error m => .error m
  | .ok _ =>
    match p.end_date_from, p.end_date_to with
    | some f, some t => if f > t then .error msgDateRange else .ok ()
    | _, _ => .ok ()

/-- Service create (services/todo.py, create_todo): validate, then
create through the repository. -/
def create_todo (s : TodoStore) (d : TodoCreate) (now : Int) :
    Except Err Todo × TodoStore :=
  match validate_todo_create d with
  | .error m => (.error (.validation m), s)
  | .ok _ => TodoRepository.create s d now

/-- Service get by id (services/todo.py, get_todo_by_id): validate the
id, then look the row up, raising NotFound when absent. -/
def get_todo_by_id (s : TodoStore) (todo_id : Int) : Except Err Todo :=
  match validate_todo_id todo_id with
  | .error m => .error (.validation m)
  | .ok _ =>
    match TodoRepository.get_by_id s todo_id with
    | none => .error (.notFound todo_id)
    | some t => .ok t

/-- Service listing (services/todo.py, get_all_todos): validate the
pagination parameters, then list through the repository. -/
def get_all_todos (s : TodoStore) (skip limit : Int) : Except Err (List Todo) :=
  match validate_pagination_params skip limit with
  | .error m => .error (.validation m)
  | .ok _ => .ok (TodoRepository.get_all s skip.toNat limit.toNat)

/-- Service update (services/todo.py, update_todo): validate the id and
the payload, check existence, then update through the repository. -/
def update_todo (s : TodoStore) (todo_id : Int) (d : TodoUpdate) (now : Int) :
    Except Err Todo × TodoStore :=
  match validate_todo_id todo_id with
  | .error m => (.error (.validation m), s)
  | .ok _ =>
    match validate_todo_update d with
    | .error m => (.error (.validation m), s)
    | .ok _ =>
      match TodoRepository.get_by_id s todo_id with
      | none => (.error (.notFound todo_id), s)
      | some _ =>
        match TodoRepository.update s todo_id d now with
        | (.error e, s1) => (.error e, s1)
        | (.ok none, s1) => (.error (.database msgUnexpected), s1)
        | (.ok (some t), s1) => (.ok t, s1)

/-- Service delete (services/todo.py, delete_todo): validate the id,
check existence, then delete through the repository. -/
def delete_todo (s : TodoStore) (todo_id : Int) : Except Err Bool × TodoStore :=
  match validate_todo_id todo_id with
  | .error m => (.error (.validation m), s)
  | .ok _ =>
    match TodoRepository.get_by_id s todo_id with
    | none => (.error (.notFound todo_id), s)
    | some _ =>
      let r := TodoRepository.delete s todo_id
      (.ok r.1, r.2)

/-- Service search (services/todo.py, search_todos): validate the search
parameters, then search through the repository. -/
def search_todos (s : TodoStore) (p : TodoSearchParams) : Except Err (List Todo) :=
  match validate_search_params p with
  | .error m => .error (.validation m)
  | .ok _ => .ok (TodoRepository.search_todos s p)

end TodoService

/-- Full create path from raw request data: pydantic construction of the
payload (a pydantic failure surfaces as a 422, the same class as a
service validation failure), then the service create. -/
def create_from_raw (s : TodoStore) (title : PyStr) (description : Option PyStr)
    (completed : Bool) (end_date : Option Int) (now : Int) :
    Except Err Todo × TodoStore :=
  match TodoCreate.validate title description completed end_date with
  | .error m => (.error (.validation m), s)
  | .ok d => TodoService.create_todo s d now

/-- Error kinds that the propagation policy raises before touching the
store: validation and not-found (services/todo.py). -/
def isValidationOrNotFound : Err → Prop
  | .validation _ => True
  | .notFound _ => True
  | .database _ => False

/-- Stores reachable from the empty table through the service-layer
create, update and delete operations. -/
inductive Reachable : TodoStore → Prop where
  | empty : Reachable ⟨[], 1⟩
  | create (s : TodoStore) (d : TodoCreate) (now : Int) :
      Reachable s → Reachable (TodoService.create_todo s d now).2
  | update (s : TodoStore) (todo_id : Int) (d : TodoUpdate) (now : Int) :
      Reachable s → Reachable (TodoService.update_todo s todo_id d now).2
  | delete (s : TodoStore) (todo_id : Int) :
      Reachable s → Reachable (TodoService.delete_todo s todo_id).2

/-- Trailing-whitespace trimming, the second half of pstrip. -/
def pstripR (l : PyStr) : PyStr :=
  (l.reverse.dropWhile Char.isWhitespace).reverse

/-- Concrete rows and stores used by counterexamples and witnesses. -/
def tA : Todo := ⟨1, ['a'], none, false, none, 5, 5⟩

def tB : Todo := ⟨2, ['b'], none, false, none, 5, 5⟩

def tC : Todo := ⟨3, ['c'], none, true, some 10, 7, 7⟩

def tD : Todo := ⟨4, ['d'], none, false, some 20, 9, 9⟩

def tE : Todo := ⟨5, ['e'], none, false, none, 11, 11⟩

def storeTie : TodoStore := ⟨[tA, tB], 3⟩

def storeMix : TodoStore := ⟨[tC, tD, tE], 6⟩

/-! Helper lemmas about pstrip and about list pagination. -/

theorem pstrip_eq (l : PyStr) :
    pstrip l = pstripR (l.dropWhile Char.isWhitespace) := rfl

theorem dropWhile_head?_not {p : Char → Bool} {l : List Char} {c : Char}
    (h : (l.dropWhile p).head? = some c) : p c = false := by
  have h2 := List.head?_dropWhile_not p l
  rw [h] at h2
  exact h2

theorem dropWhile_eq_self_of_head? {p : Char → Bool} {l : List Char}
    (h : ∀ c, l.head? = some c → p c = false) : l.dropWhile p = l := by
  cases l with
  | nil => rfl
  | cons x xs =>
    rw [List.dropWhile_cons]
    simp [h x rfl]

theorem dropWhile_idem (p : Char → Bool) (l : List Char) :
    (l.dropWhile p).dropWhile p = l.dropWhile p :=
  dropWhile_eq_self_of_head? (fun _ hc => dropWhile_head?_not hc)

theorem pstripR_pref (l : PyStr) : pstripR l <+: l := by
  have h : (l.reverse.dropWhile Char.isWhitespace) <:+ l.reverse :=
    List.dropWhile_suffix _
  have h2 := List.reverse_prefix.mpr h
  rwa [List.reverse_reverse] at h2

theorem head?_of_pref {p m : List Char} (h : p <+: m) (hne : p ≠ []) :
    p.head? = m.head? := by
  obtain ⟨t, rfl⟩ := h
  cases p with
  | nil => exact absurd rfl hne
  | cons x xs => rfl

theorem pstripR_idem (l : PyStr) : pstripR (pstripR l) = pstripR l := by
  unfold pstripR
  rw [List.reverse_reverse, dropWhile_idem]

theorem pstrip_idem (l : PyStr) : pstrip (pstrip l) = pstrip l := by
  rw [pstrip_eq l]
  rw [pstrip_eq]
  by_cases hnil : pstripR (l.dropWhile Char.isWhitespace) = []
  · rw [hnil]
    rfl
  · have hdw : (pstripR (l.dropWhile Char.isWhitespace)).dropWhile Char.isWhitespace
        = pstripR (l.dropWhile Char.isWhitespace) := by
      apply dropWhile_eq_self_of_head?
      intro c hc
      have hpref := head?_of_pref (pstripR_pref (l.dropWhile Char.isWhitespace)) hnil
      rw [hc] at hpref
      exact dropWhile_head?_not hpref.symm
    rw [hdw, pstripR_idem]

theorem pstripR_length_le (l : PyStr) : (pstripR l).length ≤ l.length := by
  unfold pstripR
  calc (l.reverse.dropWhile Char.isWhitespace).reverse.length
      = (l.reverse.dropWhile Char.isWhitespace).length := List.length_reverse _
    _ ≤ l.reverse.length := (List.dropWhile_sublist _).length_le
    _ = l.length := List.length_reverse _

theorem pstrip_length_le (l : PyStr) : (pstrip l).length ≤ l.length := by
  rw [pstrip_eq]
  calc (pstripR (l.dropWhile Char.isWhitespace)).length
      ≤ (l.dropWhile Char.isWhitespace).length := pstripR_length_le _
    _ ≤ l.length := (List.dropWhile_sublist _).length_le

theorem take_add' {α : Type} (l : List α) (n m : Nat) :
    l.take (n + m) = l.take n ++ (l.drop n).take m := by
  induction n generalizing l with
  | zero => simp
  | succ k ih =>
    cases l with
    | nil => simp
    | cons x xs =>
      simp only [Nat.succ_add, List.take_succ_cons, List.drop_succ_cons, ih, List.cons_append]

theorem pagesConcat {α : Type} (l : List α) (k : Nat) (m : Nat) :
    (List.range m).flatMap (fun i => (l.drop (i * k)).take k) = l.take (m * k) := by
  induction m with
  | zero => simp
  | succ j ih =>
    rw [List.range_succ, List.flatMap_append, ih]
    have h1 : (List.flatMap [j] fun i => (l.drop (i * k)).take k) = (l.drop (j * k)).take k := by
      simp [List.flatMap]
    rw [h1, ← take_add', Nat.succ_mul]

theorem validate_pagination_params_ok {skip limit : Int}
    (h : TodoService.validate_pagination_params skip limit = Except.ok ()) :
    0 ≤ skip ∧ 0 < limit ∧ limit ≤ 1000 := by
  unfold TodoService.validate_pagination_params at h
  split_ifs at h with h1 h2 h3
  all_goals first | exact Except.noConfusion h | omega

theorem validate_pagination_params_ok_of {skip limit : Int}
    (h1 : 0 ≤ skip) (h2 : 0 < limit) (h3 : limit ≤ 1000) :
    TodoService.validate_pagination_params skip limit = Except.ok () := by
  unfold TodoService.validate_pagination_params
  split_ifs with g1 g2 g3
  · exact absurd g1 (by omega)
  · exact absurd g2 (by omega)
  · exact absurd g3 (by omega)
  · rfl

theorem validate_search_params_ok_elim {p : TodoSearchParams}
    (h : TodoService.validate_search_params p = Except.ok ()) :
    TodoService.validate_pagination_params p.skip p.limit = Except.ok () := by
  unfold TodoService.validate_search_params at h
  cases hp : TodoService.validate_pagination_params p.skip p.limit with
  | error m => rw [hp] at h; exact Except.noConfusion h
  | ok u => cases u; rfl

theorem search_todos_ok_elim {s : TodoStore} {p : TodoSearchParams} {l : List Todo}
    (h : TodoService.search_todos s p = Except.ok l) :
    TodoService.validate_search_params p = Except.ok () ∧
      l = TodoRepository.search_todos s p := by
  unfold TodoService.search_todos at h
  cases hv : TodoService.validate_search_params p with
  | error m => rw [hv] at h; exact Except.noConfusion h
  | ok u =>
    cases u
    rw [hv] at h
    simp only [Except.ok.injEq] at h
    exact ⟨rfl, h.symm⟩

theorem matchesSearch_iff (p : TodoSearchParams) (t : Todo) :
    matchesSearch p t = true ↔
      ((∀ c, p.completed = some c → t.completed = c) ∧
       (∀ lo, p.end_date_from = some lo → ∃ e, t.end_date = some e ∧ lo ≤ e) ∧
       (∀ hi, p.end_date_to = some hi → ∃ e, t.end_date = some e ∧ e ≤ hi)) := by
  rcases p with ⟨pc, pf, pt, ps, pl⟩
  unfold matchesSearch
  cases pc <;> cases pf <;> cases pt <;> cases he : t.end_date <;>
    simp_all [and_assoc]

/-- C1: for every search invocation (with the whole matching set in the
returned page), the returned records are exactly those that satisfy
every supplied filter conjunctively: a supplied completed filter forces
equality of the completion flag, supplied deadline bounds are inclusive
on end_date, absent filters impose no constraint, and a record with a
null end_date never matches when either deadline bound is supplied. -/
theorem search_returns_exactly_matching (s : TodoStore) (p : TodoSearchParams)
    (l : List Todo) (hok : TodoService.search_todos s p = Except.ok l)
    (hskip : p.skip = 0) (hlim : (s.rows.length : Int) ≤ p.limit) :
    ∀ t ∈ s.rows, (t ∈ l ↔
      ((∀ c, p.completed = some c → t.completed = c) ∧
       (∀ lo, p.end_date_from = some lo → ∃ e, t.end_date = some e ∧ lo ≤ e) ∧
       (∀ hi, p.end_date_to = some hi → ∃ e, t.end_date = some e ∧ e ≤ hi))) := by
  obtain ⟨hv, rfl⟩ := search_todos_ok_elim hok
  have hpag := validate_pagination_params_ok (validate_search_params_ok_elim hv)
  intro t ht
  rw [← matchesSearch_iff]
  unfold TodoRepository.search_todos orderByCreatedAtDesc
  have hlf := List.length_filter_le (matchesSearch p) s.rows
  have hlen : (List.insertionSort todoLe (s.rows.filter (matchesSearch p))).length
      ≤ p.limit.toNat := by
    rw [List.length_insertionSort]
    omega
  rw [hskip]
  simp only [Int.toNat_zero, List.drop_zero]
  rw [List.take_of_length_le hlen]
  rw [List.mem_insertionSort, List.mem_filter]
  simp [ht]

/-- C1 witness: a concrete search invocation, instantiated at a record
with a null end_date facing supplied deadline bounds. -/
theorem search_returns_exactly_matching_witness :
    (tE ∈ [tD] ↔
      ((∀ c, (some false : Option Bool) = some c → tE.completed = c) ∧
       (∀ lo, (some 15 : Option Int) = some lo → ∃ e, tE.end_date = some e ∧ lo ≤ e) ∧
       (∀ hi, (some 25 : Option Int) = some hi → ∃ e, tE.end_date = some e ∧ e ≤ hi))) :=
  search_returns_exactly_matching storeMix ⟨some false, some 15, some 25, 0, 100⟩ [tD]
    (by decide) rfl (by decide) tE (by decide)

theorem get_all_todos_ok_elim {s : TodoStore} {skip limit : Int} {l : List Todo}
    (h : TodoService.get_all_todos s skip limit = Except.ok l) :
    TodoService.validate_pagination_params skip limit = Except.ok () ∧
      l = TodoRepository.get_all s skip.toNat limit.toNat := by
  unfold TodoService.get_all_todos at h
  cases hv : TodoService.validate_pagination_params skip limit with
  | error m => rw [hv] at h; exact Except.noConfusion h
  | ok u =>
    cases u
    rw [hv] at h
    simp only [Except.ok.injEq] at h
    exact ⟨rfl, h.symm⟩

/-- C2 counterexample: on a store holding two records with identical
created_at timestamps, the listing returns them in insertion order
(ascending id), so the returned page is not ordered by id descending on
the tie. -/
theorem ordering_tie_break_counterexample :
    TodoService.get_all_todos storeTie 0 100 = Except.ok [tA, tB] ∧
    tA.created_at = tB.created_at ∧ tA.id < tB.id ∧
    ¬ ([tA, tB].Pairwise (fun a b =>
        b.created_at < a.created_at ∨ (b.created_at = a.created_at ∧ b.id < a.id))) := by
  decide

/-- C2 amended: every list or search result is ordered descending by
created_at, and records with identical created_at timestamps are
returned in the store's insertion order (for a full page, every
identically-timestamped pair keeps its relative store order); the code
applies no id-descending tie-break. -/
theorem list_and_search_ordering :
    (∀ (s : TodoStore) (skip limit : Int) (l : List Todo),
      TodoService.get_all_todos s skip limit = Except.ok l →
      l.Pairwise todoLe ∧
      (skip = 0 → (s.rows.length : Int) ≤ limit →
        ∀ a b, a.created_at = b.created_at → [a, b] <+ s.rows → [a, b] <+ l)) ∧
    (∀ (s : TodoStore) (p : TodoSearchParams) (l : List Todo),
      TodoService.search_todos s p = Except.ok l →
      l.Pairwise todoLe ∧
      (p.skip = 0 → (s.rows.length : Int) ≤ p.limit →
        ∀ a b, a.created_at = b.created_at → [a, b] <+ s.rows →
          matchesSearch p a = true → matchesSearch p b = true → [a, b] <+ l)) := by
  constructor
  · intro s skip limit l hok
    obtain ⟨hv, rfl⟩ := get_all_todos_ok_elim hok
    have hpag := validate_pagination_params_ok hv
    constructor
    · unfold TodoRepository.get_all orderByCreatedAtDesc
      exact List.Pairwise.sublist ((List.take_sublist _ _).trans (List.drop_sublist _ _))
        (List.sorted_insertionSort todoLe s.rows)
    · intro hskip hlim a b hab hsub
      unfold TodoRepository.get_all orderByCreatedAtDesc
      have hlen : (List.insertionSort todoLe s.rows).length ≤ limit.toNat := by
        rw [List.length_insertionSort]
        omega
      rw [hskip]
      simp only [Int.toNat_zero, List.drop_zero]
      rw [List.take_of_length_le hlen]
      exact List.pair_sublist_insertionSort (le_of_eq hab.symm) hsub
  · intro s p l hok
    obtain ⟨hv, rfl⟩ := search_todos_ok_elim hok
    have hpag := validate_pagination_params_ok (validate_search_params_ok_elim hv)
    constructor
    · unfold TodoRepository.search_todos orderByCreatedAtDesc
      exact List.Pairwise.sublist ((List.take_sublist _ _).trans (List.drop_sublist _ _))
        (List.sorted_insertionSort todoLe _)
    · intro hskip hlim a b hab hsub hma hmb
      unfold TodoRepository.search_todos orderByCreatedAtDesc
      have hlf := List.length_filter_le (matchesSearch p) s.rows
      have hlen : (List.insertionSort todoLe (s.rows.filter (matchesSearch p))).length
          ≤ p.limit.toNat := by
        rw [List.length_insertionSort]
        omega
      rw [hskip]
      simp only [Int.toNat_zero, List.drop_zero]
      rw [List.take_of_length_le hlen]
      have hfsub : [a, b] <+ s.rows.filter (matchesSearch p) := by
        have h2 := hsub.filter (matchesSearch p)
        rwa [List.filter_cons, List.filter_cons, hma, hmb] at h2
      exact List.pair_sublist_insertionSort (le_of_eq hab.symm) hfsub

/-- C2 amended witness: the theorem applied to a concrete listing whose
two records share a created_at timestamp. -/
theorem list_and_search_ordering_witness :
    ([tA, tB].Pairwise todoLe ∧ [tA, tB] <+ [tA, tB]) :=
  ⟨(list_and_search_ordering.1 storeTie 0 100 [tA, tB] (by decide)).1,
   (list_and_search_ordering.1 storeTie 0 100 [tA, tB] (by decide)).2 rfl (by decide)
     tA tB rfl (by decide)⟩

/-- C3: for a fixed dataset, every page size k in [1,1000] and every
skip at least 0, the listing succeeds and returns at most k records, and
the successive pages skip=0, skip=k, skip=2k, ... concatenate to the
whole ordered dataset, which is itself a permutation of the stored rows
(no duplicate and no omitted record). -/
theorem get_all_pagination_exact (s : TodoStore) (k : Int)
    (hk1 : 1 ≤ k) (hk2 : k ≤ 1000) :
    (∀ (skip : Int) (l : List Todo), 0 ≤ skip →
      TodoService.get_all_todos s skip k = Except.ok l → l.length ≤ k.toNat) ∧
    (∀ skip : Int, 0 ≤ skip → ∃ l, TodoService.get_all_todos s skip k = Except.ok l) ∧
    (∀ m : Nat, s.rows.length ≤ m * k.toNat →
      (List.range m).flatMap
        (fun i => ((TodoService.get_all_todos s ((i : Int) * k) k).toOption.getD []))
        = orderByCreatedAtDesc s.rows) ∧
    orderByCreatedAtDesc s.rows ~ s.rows := by
  have heq : ∀ skip : Int, 0 ≤ skip →
      TodoService.get_all_todos s skip k
        = Except.ok (TodoRepository.get_all s skip.toNat k.toNat) := by
    intro sk hsk
    unfold TodoService.get_all_todos
    rw [validate_pagination_params_ok_of hsk (by omega) hk2]
  refine ⟨?_, ?_, ?_, List.perm_insertionSort todoLe s.rows⟩
  · intro skip l hsk hok
    rw [heq skip hsk] at hok
    simp only [Except.ok.injEq] at hok
    rw [← hok]
    exact List.length_take_le _ _
  · intro skip hsk
    exact ⟨_, heq skip hsk⟩
  · intro m hm
    have hk0 : (k.toNat : Int) = k := Int.toNat_of_nonneg (by omega)
    have hidx : ∀ i : Nat, ((i : Int) * k).toNat = i * k.toNat := by
      intro i
      rw [← hk0, ← Nat.cast_mul]
      exact Int.toNat_natCast _
    have hstep : (List.range m).flatMap
        (fun i => ((TodoService.get_all_todos s ((i : Int) * k) k).toOption.getD []))
        = (List.range m).flatMap
          (fun i => ((orderByCreatedAtDesc s.rows).drop (i * k.toNat)).take k.toNat) := by
      unfold List.flatMap
      congr 1
      apply List.map_congr_left
      intro i _
      rw [heq _ (mul_nonneg (Int.natCast_nonneg i) (by omega))]
      simp [Except.toOption, TodoRepository.get_all, hidx i]
    rw [hstep, pagesConcat]
    apply List.take_of_length_le
    unfold orderByCreatedAtDesc
    rw [List.length_insertionSort]
    exact hm

/-- C3 witness: two pages of size 2 over the three-row store concatenate
to the whole ordered dataset. -/
theorem get_all_pagination_exact_witness :
    (List.range 2).flatMap
      (fun i => ((TodoService.get_all_todos storeMix ((i : Int) * 2) 2).toOption.getD []))
      = orderByCreatedAtDesc storeMix.rows :=
  (get_all_pagination_exact storeMix 2 (by decide) (by decide)).2.2.1 2 (by decide)

theorem create_from_raw_ok {s : TodoStore} {title : PyStr} {c : Bool}
    {ed : Option Int} {now : Int}
    (h1 : pstrip title ≠ []) (h2 : title.length ≤ 200) :
    create_from_raw s title none c ed now =
      (Except.ok ⟨s.nextId, pstrip title, none, c, ed, now, now⟩,
       ⟨s.rows ++ [⟨s.nextId, pstrip title, none, c, ed, now, now⟩], s.nextId + 1⟩) := by
  have htne : title ≠ [] := by
    intro he
    rw [he] at h1
    exact h1 rfl
  have hlen1 : ¬ (title.length < 1) := by
    have := List.length_pos.mpr htne
    omega
  have hlen2 : ¬ (title.length > 200) := by omega
  have hlen3 : ¬ ((pstrip title).length > 200) := by
    have := pstrip_length_le title
    omega
  simp [create_from_raw, TodoCreate.validate, TodoService.create_todo,
    TodoService.validate_todo_create, TodoRepository.create, Todo.validate_title,
    Todo.validate_description, hlen1, hlen2, hlen3, h1, pstrip_idem]

/-- C4: on the create path, title validation fails with a validation
error exactly when the title is empty or whitespace-only after trimming
or its raw length exceeds 200 characters; on success the stored title is
the trimmed input and the new row is appended to the store. -/
theorem title_validation_iff (s : TodoStore) (title : PyStr) (c : Bool)
    (ed : Option Int) (now : Int) :
    ((∃ m, (create_from_raw s title none c ed now).1 = Except.error (Err.validation m)) ↔
      (pstrip title = [] ∨ 200 < title.length)) ∧
    (∀ t s1, create_from_raw s title none c ed now = (Except.ok t, s1) →
      t.title = pstrip title ∧ s1.rows = s.rows ++ [t]) := by
  by_cases hbad : pstrip title = [] ∨ 200 < title.length
  · have hres : ∃ m, create_from_raw s title none c ed now
        = (Except.error (Err.validation m), s) := by
      unfold create_from_raw TodoCreate.validate
      by_cases g1 : title.length < 1
      · rw [if_pos g1]
        exact ⟨msgMinLen, rfl⟩
      · rw [if_neg g1]
        by_cases g2 : title.length > 200
        · rw [if_pos g2]
          exact ⟨msgMaxLenTitle, rfl⟩
        · rw [if_neg g2]
          have g3 : pstrip title = [] := by
            rcases hbad with h | h
            · exact h
            · omega
          rw [if_pos g3]
          exact ⟨msgTitleEmptyModel, rfl⟩
    obtain ⟨m, hm⟩ := hres
    refine ⟨⟨fun _ => hbad, fun _ => ⟨m, by rw [hm]⟩⟩, ?_⟩
    intro t s1 heq
    rw [hm] at heq
    simp at heq
  · push_neg at hbad
    obtain ⟨h1, h2⟩ := hbad
    rw [create_from_raw_ok h1 (by omega)]
    constructor
    · simp
      exact ⟨h1, by omega⟩
    · intro t s1 heq
      simp only [Prod.mk.injEq, Except.ok.injEq] at heq
      obtain ⟨ht, hs⟩ := heq
      subst ht hs
      exact ⟨rfl, rfl⟩

/-- C4 witness: a concrete title with surrounding whitespace is stored
trimmed, and the success case is reachable. -/
theorem title_validation_iff_witness :
    ((∃ m, (create_from_raw storeMix [' ', 't', ' '] none false none 7).1
        = Except.error (Err.validation m)) ↔
      (pstrip [' ', 't', ' '] = [] ∨ 200 < ([' ', 't', ' '] : PyStr).length)) :=
  (title_validation_iff storeMix [' ', 't', ' '] false none 7).1

/-- C5: for every id and clock, an update payload carrying zero fields
fails with a validation error and the store is unchanged; the empty
payload is never accepted as a silent no-op. -/
theorem update_empty_payload_rejected (s : TodoStore) (todo_id : Int) (now : Int) :
    (∃ m, (TodoService.update_todo s todo_id ⟨none, none, none, none⟩ now).1
        = Except.error (Err.validation m)) ∧
    (TodoService.update_todo s todo_id ⟨none, none, none, none⟩ now).2 = s := by
  by_cases h : todo_id ≤ 0
  · constructor
    · exact ⟨msgIdPositive, by simp [TodoService.update_todo, TodoService.validate_todo_id, h]⟩
    · simp [TodoService.update_todo, TodoService.validate_todo_id, h]
  · constructor
    · exact ⟨msgAtLeastOne, by
        simp [TodoService.update_todo, TodoService.validate_todo_id,
          TodoService.validate_todo_update, h]⟩
    · simp [TodoService.update_todo, TodoService.validate_todo_id,
        TodoService.validate_todo_update, h]

/-- C6: deleting a positive id for which no record exists fails with
NotFound and leaves the store unchanged. -/
theorem delete_absent_not_found (s : TodoStore) (todo_id : Int)
    (hpos : 0 < todo_id) (habsent : ∀ t ∈ s.rows, t.id ≠ todo_id) :
    TodoService.delete_todo s todo_id = (Except.error (Err.notFound todo_id), s) := by
  have hfind : TodoRepository.get_by_id s todo_id = none := by
    unfold TodoRepository.get_by_id
    rw [List.find?_eq_none]
    intro t ht
    simpa using habsent t ht
  unfold TodoService.delete_todo TodoService.validate_todo_id
  rw [if_neg (by omega), hfind]

/-- C6 witness: deleting id 1 from the empty store. -/
theorem delete_absent_not_found_witness :
    TodoService.delete_todo ⟨[], 1⟩ 1
      = (Except.error (Err.notFound 1), (⟨[], 1⟩ : TodoStore)) :=
  delete_absent_not_found ⟨[], 1⟩ 1 (by decide) (by simp)

/-- C10: for every non-positive id, get, update and delete all fail with
a validation error (not NotFound), and the store is unchanged, the
verdict being independent of the store contents. -/
theorem nonpositive_id_rejected (s : TodoStore) (todo_id : Int)
    (d : TodoUpdate) (now : Int) (hid : todo_id ≤ 0) :
    TodoService.get_todo_by_id s todo_id = Except.error (Err.validation msgIdPositive) ∧
    TodoService.update_todo s todo_id d now
      = (Except.error (Err.validation msgIdPositive), s) ∧
    TodoService.delete_todo s todo_id
      = (Except.error (Err.validation msgIdPositive), s) := by
  refine ⟨?_, ?_, ?_⟩ <;>
    simp [TodoService.get_todo_by_id, TodoService.update_todo, TodoService.delete_todo,
      TodoService.validate_todo_id, hid]

/-- C10 witness: id 0 against a populated store. -/
theorem nonpositive_id_rejected_witness :
    TodoService.get_todo_by_id storeMix 0
      = Except.error (Err.validation msgIdPositive) :=
  (nonpositive_id_rejected storeMix 0 ⟨none, none, some (some true), none⟩ 0 (by decide)).1

theorem repo_create_error_state {s : TodoStore} {d : TodoCreate} {now : Int} {e : Err}
    (h : (TodoRepository.create s d now).1 = Except.error e) :
    (TodoRepository.create s d now).2 = s := by
  unfold TodoRepository.create at h ⊢
  cases h1 : Todo.validate_title (some d.title) with
  | error m => simp only [h1]
  | ok ti =>
    cases h2 : Todo.validate_description d.description with
    | error m => simp only [h1, h2]
    | ok de =>
      rw [h1, h2] at h
      exact Except.noConfusion h

theorem repo_update_error_state {s : TodoStore} {todo_id : Int} {d : TodoUpdate}
    {now : Int} {e : Err}
    (h : (TodoRepository.update s todo_id d now).1 = Except.error e) :
    (TodoRepository.update s todo_id d now).2 = s := by
  unfold TodoRepository.update at h ⊢
  cases hf : TodoRepository.get_by_id s todo_id with
  | none => simp only [hf]
  | some t =>
    simp only [hf] at h ⊢
    cases ha : TodoRepository.applyUpdate t d with
    | error m => simp only [ha]
    | ok t0 =>
      simp only [ha] at h
      split at h
      · simp at h
      · simp at h

/-- C7: whenever create, update or delete fails with a validation or
not-found error, the error was raised before any store mutation: the
store after the failed call equals the store before it. -/
theorem no_partial_effect_on_failure :
    (∀ (s : TodoStore) (d : TodoCreate) (now : Int) (e : Err),
      (TodoService.create_todo s d now).1 = Except.error e →
      isValidationOrNotFound e → (TodoService.create_todo s d now).2 = s) ∧
    (∀ (s : TodoStore) (todo_id : Int) (d : TodoUpdate) (now : Int) (e : Err),
      (TodoService.update_todo s todo_id d now).1 = Except.error e →
      isValidationOrNotFound e → (TodoService.update_todo s todo_id d now).2 = s) ∧
    (∀ (s : TodoStore) (todo_id : Int) (e : Err),
      (TodoService.delete_todo s todo_id).1 = Except.error e →
      isValidationOrNotFound e → (TodoService.delete_todo s todo_id).2 = s) := by
  refine ⟨?_, ?_, ?_⟩
  · intro s d now e h _
    unfold TodoService.create_todo at h ⊢
    cases hv : TodoService.validate_todo_create d with
    | error m => simp only [hv]
    | ok u =>
      cases u
      simp only [hv] at h ⊢
      exact repo_create_error_state h
  · intro s todo_id d now e h hvnf
    unfold TodoService.update_todo at h ⊢
    cases hv1 : TodoService.validate_todo_id todo_id with
    | error m => simp only [hv1]
    | ok u =>
      cases u
      simp only [hv1] at h ⊢
      cases hv2 : TodoService.validate_todo_update d with
      | error m => simp only [hv2]
      | ok u2 =>
        cases u2
        simp only [hv2] at h ⊢
        cases hf : TodoRepository.get_by_id s todo_id with
        | none => simp only [hf]
        | some t =>
          simp only [hf] at h ⊢
          cases hru : TodoRepository.update s todo_id d now with
          | mk fst snd =>
            cases fst with
            | error e' =>
              simp only at h ⊢
              have h1 : (TodoRepository.update s todo_id d now).1 = Except.error e' := by
                rw [hru]
              have h2 := repo_update_error_state h1
              rw [hru] at h2
              simpa using h2
            | ok o =>
              cases o with
              | none =>
                exfalso
                rw [hru] at h
                have h2 : Err.database msgUnexpected = e := by
                  simpa using h
                rw [← h2] at hvnf
                simp [isValidationOrNotFound] at hvnf
              | some t1 =>
                rw [hru] at h
                simp at h
  · intro s todo_id e h _
    unfold TodoService.delete_todo at h ⊢
    cases hv1 : TodoService.validate_todo_id todo_id with
    | error m => simp only [hv1]
    | ok u =>
      cases u
      simp only [hv1] at h ⊢
      cases hf : TodoRepository.get_by_id s todo_id with
      | none => simp only [hf]
      | some t =>
        simp only [hf] at h
        exact Except.noConfusion h

/-- C7 witness: a failing update (non-positive id) leaves the concrete
store untouched. -/
theorem no_partial_effect_on_failure_witness :
    (TodoService.update_todo storeMix (-1) ⟨none, none, some (some true), none⟩ 9).2
      = storeMix :=
  no_partial_effect_on_failure.2.1 storeMix (-1) ⟨none, none, some (some true), none⟩ 9
    (Err.validation msgIdPositive) (by decide) trivial

theorem setTitle_ok {t t1 : Todo} {d : TodoUpdate}
    (h : TodoRepository.setTitle t d = Except.ok t1) :
    t1.id = t.id ∧ t1.description = t.description ∧ t1.completed = t.completed ∧
    t1.end_date = t.end_date ∧ t1.created_at = t.created_at ∧
    t1.updated_at = t.updated_at ∧
    (d.title = none → t1.title = t.title) ∧
    (∀ v, d.title = some v → Todo.validate_title v = Except.ok t1.title) := by
  unfold TodoRepository.setTitle at h
  cases hd : d.title with
  | none =>
    rw [hd] at h
    simp only [Except.ok.injEq] at h
    subst h
    simp [hd]
  | some v =>
    simp only [hd] at h
    cases hv : Todo.validate_title v with
    | error m =>
      rw [hv] at h
      exact Except.noConfusion h
    | ok ti =>
      rw [hv] at h
      simp only [Except.map, Except.ok.injEq] at h
      subst h
      refine ⟨rfl, rfl, rfl, rfl, rfl, rfl, by simp [hd], ?_⟩
      intro v' hv'
      injection hv' with hv2
      subst hv2
      exact hv

theorem setDescription_ok {t t1 : Todo} {d : TodoUpdate}
    (h : TodoRepository.setDescription t d = Except.ok t1) :
    t1.id = t.id ∧ t1.title = t.title ∧ t1.completed = t.completed ∧
    t1.end_date = t.end_date ∧ t1.created_at = t.created_at ∧
    t1.updated_at = t.updated_at ∧
    (d.description = none → t1.description = t.description) ∧
    (∀ v, d.description = some v → Todo.validate_description v = Except.ok t1.description) := by
  unfold TodoRepository.setDescription at h
  cases hd : d.description with
  | none =>
    rw [hd] at h
    simp only [Except.ok.injEq] at h
    subst h
    simp [hd]
  | some v =>
    simp only [hd] at h
    cases hv : Todo.validate_description v with
    | error m =>
      rw [hv] at h
      exact Except.noConfusion h
    | ok de =>
      rw [hv] at h
      simp only [Except.map, Except.ok.injEq] at h
      subst h
      refine ⟨rfl, rfl, rfl, rfl, rfl, rfl, by simp [hd], ?_⟩
      intro v' hv'
      injection hv' with hv2
      subst hv2
      exact hv

theorem setCompleted_ok {t t1 : Todo} {d : TodoUpdate}
    (h : TodoRepository.setCompleted t d = Except.ok t1) :
    t1.id = t.id ∧ t1.title = t.title ∧ t1.description = t.description ∧
    t1.end_date = t.end_date ∧ t1.created_at = t.created_at ∧
    t1.updated_at = t.updated_at ∧
    (d.completed = none → t1.completed = t.completed) ∧
    (∀ v, d.completed = some v → ∃ b, v = some b ∧ t1.completed = b) := by
  unfold TodoRepository.setCompleted at h
  cases hd : d.completed with
  | none =>
    rw [hd] at h
    simp only [Except.ok.injEq] at h
    subst h
    simp [hd]
  | some o =>
    simp only [hd] at h
    cases o with
    | none => exact Except.noConfusion h
    | some b =>
      simp only [Except.ok.injEq] at h
      subst h
      refine ⟨rfl, rfl, rfl, rfl, rfl, rfl, by simp [hd], ?_⟩
      intro v hv
      injection hv with hv2
      exact ⟨b, hv2.symm, rfl⟩

theorem setEndDate_spec (t : Todo) (d : TodoUpdate) :
    (TodoRepository.setEndDate t d).id = t.id ∧
    (TodoRepository.setEndDate t d).title = t.title ∧
    (TodoRepository.setEndDate t d).description = t.description ∧
    (TodoRepository.setEndDate t d).completed = t.completed ∧
    (TodoRepository.setEndDate t d).created_at = t.created_at ∧
    (TodoRepository.setEndDate t d).updated_at = t.updated_at ∧
    (d.end_date = none → (TodoRepository.setEndDate t d).end_date = t.end_date) ∧
    (∀ v, d.end_date = some v → (TodoRepository.setEndDate t d).end_date = v) := by
  unfold TodoRepository.setEndDate
  cases hd : d.end_date with
  | none => simp
  | some v => simp

theorem applyUpdate_ok_spec {t t0 : Todo} {d : TodoUpdate}
    (h : TodoRepository.applyUpdate t d = Except.ok t0) :
    t0.id = t.id ∧ t0.created_at = t.created_at ∧ t0.updated_at = t.updated_at ∧
    (d.title = none → t0.title = t.title) ∧
    (∀ v, d.title = some v → Todo.validate_title v = Except.ok t0.title) ∧
    (d.description = none → t0.description = t.description) ∧
    (∀ v, d.description = some v → Todo.validate_description v = Except.ok t0.description) ∧
    (d.completed = none → t0.completed = t.completed) ∧
    (∀ v, d.completed = some v → ∃ b, v = some b ∧ t0.completed = b) ∧
    (d.end_date = none → t0.end_date = t.end_date) ∧
    (∀ v, d.end_date = some v → t0.end_date = v) := by
  unfold TodoRepository.applyUpdate at h
  cases h1 : TodoRepository.setTitle t d with
  | error m => rw [h1] at h; exact Except.noConfusion h
  | ok t1 =>
    simp only [h1] at h
    cases h2 : TodoRepository.setDescription t1 d with
    | error m => rw [h2] at h; exact Except.noConfusion h
    | ok t2 =>
      simp only [h2] at h
      cases h3 : TodoRepository.setCompleted t2 d with
      | error m => rw [h3] at h; exact Except.noConfusion h
      | ok t3 =>
        simp only [h3] at h
        simp only [Except.ok.injEq] at h
        subst h
        obtain ⟨a1, a2, a3, a4, a5, a6, a7, a8⟩ := setTitle_ok h1
        obtain ⟨b1, b2, b3, b4, b5, b6, b7, b8⟩ := setDescription_ok h2
        obtain ⟨c1, c2, c3, c4, c5, c6, c7, c8⟩ := setCompleted_ok h3
        obtain ⟨e1, e2, e3, e4, e5, e6, e7, e8⟩ := setEndDate_spec t3 d
        refine ⟨?_, ?_, ?_, ?_, ?_, ?_, ?_, ?_, ?_, ?_, ?_⟩
        · rw [e1, c1, b1, a1]
        · rw [e5, c5, b5, a5]
        · rw [e6, c6, b6, a6]
        · intro hn
          rw [e2, c2, b2, a7 hn]
        · intro v hv
          rw [e2, c2, b2]
          exact a8 v hv
        · intro hn
          rw [e3, c3, b7 hn, a2]
        · intro v hv
          rw [e3, c3]
          exact b8 v hv
        · intro hn
          rw [e4, c7 hn, b3, a3]
        · intro v hv
          obtain ⟨b, hb1, hb2⟩ := c8 v hv
          exact ⟨b, hb1, by rw [e4, hb2]⟩
        · intro hn
          rw [e7 hn, c4, b4, a4]
        · intro v hv
          exact e8 v hv

theorem update_todo_ok_eq (now : Int) {s : TodoStore} {todo_id : Int} {d : TodoUpdate}
    {t t0 : Todo}
    (hpos : ¬ todo_id ≤ 0)
    (hv2 : TodoService.validate_todo_update d = Except.ok ())
    (hf : TodoRepository.get_by_id s todo_id = some t)
    (ha : TodoRepository.applyUpdate t d = Except.ok t0)
    (hne : t0 ≠ t) :
    TodoService.update_todo s todo_id d now =
      (Except.ok { t0 with updated_at := now },
       ⟨s.rows.map (fun r => if r.id = todo_id then { t0 with updated_at := now } else r),
        s.nextId⟩) := by
  simp only [TodoService.update_todo, TodoService.validate_todo_id, TodoRepository.update,
    if_neg hpos, hv2, hf, ha, if_neg hne]

theorem update_todo_noop_eq (now : Int) {s : TodoStore} {todo_id : Int} {d : TodoUpdate}
    {t t0 : Todo}
    (hpos : ¬ todo_id ≤ 0)
    (hv2 : TodoService.validate_todo_update d = Except.ok ())
    (hf : TodoRepository.get_by_id s todo_id = some t)
    (ha : TodoRepository.applyUpdate t d = Except.ok t0)
    (hne : t0 = t) :
    TodoService.update_todo s todo_id d now = (Except.ok t, s) := by
  subst hne
  simp only [TodoService.update_todo, TodoService.validate_todo_id, TodoRepository.update,
    if_neg hpos, hv2, hf, ha]
  simp

/-- C8 counterexample: updating an already-completed record with
completed=true supplies only values equal to the stored ones, so no
UPDATE is emitted; the call succeeds but the returned record keeps its
previous updated_at even though the commit clock has advanced, and the
store is unchanged — refuting the unconditional refresh and strict
increase of updated_at. -/
theorem update_no_net_change_counterexample :
    TodoService.update_todo storeMix 3 ⟨none, none, some (some true), none⟩ 100
      = (Except.ok tC, storeMix) ∧
    tC.completed = true ∧ tC.updated_at < 100 ∧
    ¬ tC.updated_at < tC.updated_at := by
  decide

/-- C8 amended: a successful update of an existing record changes
exactly the supplied fields (through the column validators) and leaves
id, created_at and every unsupplied field unchanged; when the applied
row differs from the stored row (a net attribute change), updated_at is
stamped with the commit clock — strictly increasing whenever that clock
lies after the record's previous updated_at — and exactly the one
replaced row is committed; when every applied value equals the stored
value, no UPDATE is emitted and the record, including updated_at, and
the store are unchanged. -/
theorem update_changes_only_supplied (s : TodoStore) (todo_id : Int)
    (d : TodoUpdate) (now : Int) (t t' : Todo)
    (hfound : TodoRepository.get_by_id s todo_id = some t)
    (hok : (TodoService.update_todo s todo_id d now).1 = Except.ok t') :
    t'.id = t.id ∧ t'.created_at = t.created_at ∧
    (d.title = none → t'.title = t.title) ∧
    (∀ v, d.title = some v → Todo.validate_title v = Except.ok t'.title) ∧
    (d.description = none → t'.description = t.description) ∧
    (∀ v, d.description = some v → Todo.validate_description v = Except.ok t'.description) ∧
    (d.completed = none → t'.completed = t.completed) ∧
    (∀ v, d.completed = some v → ∃ b, v = some b ∧ t'.completed = b) ∧
    (d.end_date = none → t'.end_date = t.end_date) ∧
    (∀ v, d.end_date = some v → t'.end_date = v) ∧
    (∀ t0, TodoRepository.applyUpdate t d = Except.ok t0 →
      (t0 ≠ t → t'.updated_at = now ∧
        (t.updated_at < now → t.updated_at < t'.updated_at) ∧
        (TodoService.update_todo s todo_id d now).2.rows
          = s.rows.map (fun r => if r.id = todo_id then t' else r)) ∧
      (t0 = t → t' = t ∧ (TodoService.update_todo s todo_id d now).2 = s)) := by
  by_cases hpos : todo_id ≤ 0
  · exfalso
    simp [TodoService.update_todo, TodoService.validate_todo_id, hpos] at hok
  cases hv2 : TodoService.validate_todo_update d with
  | error m =>
    exfalso
    simp [TodoService.update_todo, TodoService.validate_todo_id, hpos, hv2] at hok
  | ok u =>
    cases u
    cases ha : TodoRepository.applyUpdate t d with
    | error m =>
      exfalso
      simp [TodoService.update_todo, TodoService.validate_todo_id, TodoRepository.update,
        hpos, hv2, hfound, ha] at hok
    | ok t0 =>
      obtain ⟨a1, a5, a6, tn, ts, dn, ds, cn, cs, en, es⟩ := applyUpdate_ok_spec ha
      by_cases hne : t0 = t
      · have heq := update_todo_noop_eq now hpos hv2 hfound ha hne
        rw [heq] at hok
        simp only [Except.ok.injEq] at hok
        subst hok
        subst hne
        refine ⟨rfl, rfl, tn, ts, dn, ds, cn, cs, en, es, ?_⟩
        intro t0' ha'
        simp only [Except.ok.injEq] at ha'
        subst ha'
        exact ⟨fun hcon => absurd rfl hcon, fun _ => ⟨rfl, by rw [heq]⟩⟩
      · have heq := update_todo_ok_eq now hpos hv2 hfound ha hne
        rw [heq] at hok
        simp only [Except.ok.injEq] at hok
        subst hok
        refine ⟨by simpa using a1, by simpa using a5, ?_, ?_, ?_, ?_, ?_, ?_, ?_, ?_, ?_⟩
        · intro hn
          simpa using tn hn
        · intro v hv
          simpa using ts v hv
        · intro hn
          simpa using dn hn
        · intro v hv
          simpa using ds v hv
        · intro hn
          simpa using cn hn
        · intro v hv
          obtain ⟨b, hb1, hb2⟩ := cs v hv
          exact ⟨b, hb1, by simpa using hb2⟩
        · intro hn
          simpa using en hn
        · intro v hv
          simpa using es v hv
        · intro t0' ha'
          simp only [Except.ok.injEq] at ha'
          subst ha'
          refine ⟨fun _ => ⟨rfl, fun hlt => by simpa using hlt, by rw [heq]⟩,
            fun hcon => absurd hcon hne⟩

/-- C8 amended witness: updating the completed flag of a concrete
incomplete record is a net change, so updated_at is stamped with the
commit clock, strictly above its previous value. -/
theorem update_changes_only_supplied_witness :
    (⟨1, ['a'], none, true, none, 5, 9⟩ : Todo).updated_at = 9 ∧
    tA.updated_at < (⟨1, ['a'], none, true, none, 5, 9⟩ : Todo).updated_at :=
  ⟨((update_changes_only_supplied storeTie 1 ⟨none, none, some (some true), none⟩ 9 tA
      ⟨1, ['a'], none, true, none, 5, 9⟩ (by decide)
      (by decide)).2.2.2.2.2.2.2.2.2.2 ⟨1, ['a'], none, true, none, 5, 5⟩
      (by decide)).1 (by decide) |>.1,
   ((update_changes_only_supplied storeTie 1 ⟨none, none, some (some true), none⟩ 9 tA
      ⟨1, ['a'], none, true, none, 5, 9⟩ (by decide)
      (by decide)).2.2.2.2.2.2.2.2.2.2 ⟨1, ['a'], none, true, none, 5, 5⟩
      (by decide)).1 (by decide) |>.2.1 (by decide)⟩

theorem validate_description_ok_some {v : Option PyStr} {dsc : PyStr}
    (h : Todo.validate_description v = Except.ok (some dsc)) :
    pstrip dsc = dsc ∧ dsc ≠ [] := by
  unfold Todo.validate_description at h
  cases v with
  | none => simp at h
  | some s =>
    simp only at h
    split_ifs at h with g1 g2
    · simp at h
    · simp only [Except.ok.injEq, Option.some.injEq] at h
      subst h
      exact ⟨pstrip_idem s, g2⟩

theorem create_todo_ok_elim {s : TodoStore} {d : TodoCreate} {now : Int}
    {t : Todo} {s1 : TodoStore}
    (h : TodoService.create_todo s d now = (Except.ok t, s1)) :
    Todo.validate_description d.description = Except.ok t.description ∧
    s1.rows = s.rows ++ [t] := by
  unfold TodoService.create_todo at h
  cases hv : TodoService.validate_todo_create d with
  | error m => rw [hv] at h; simp at h
  | ok u =>
    cases u
    simp only [hv] at h
    unfold TodoRepository.create at h
    cases h1 : Todo.validate_title (some d.title) with
    | error m => simp only [h1] at h; simp at h
    | ok ti =>
      simp only [h1] at h
      cases h2 : Todo.validate_description d.description with
      | error m => simp only [h2] at h; simp at h
      | ok de =>
        simp only [h2] at h
        simp only [Prod.mk.injEq, Except.ok.injEq] at h
        obtain ⟨ht, hs⟩ := h
        subst ht
        subst hs
        exact ⟨by simp, rfl⟩

theorem create_todo_store_cases (s : TodoStore) (d : TodoCreate) (now : Int) :
    (TodoService.create_todo s d now).2 = s ∨
    ∃ t, Todo.validate_description d.description = Except.ok t.description ∧
      (TodoService.create_todo s d now).2.rows = s.rows ++ [t] := by
  cases hv : TodoService.validate_todo_create d with
  | error m => left; simp [TodoService.create_todo, hv]
  | ok u =>
    cases u
    cases h1 : Todo.validate_title (some d.title) with
    | error m => left; simp [TodoService.create_todo, TodoRepository.create, hv, h1]
    | ok ti =>
      cases h2 : Todo.validate_description d.description with
      | error m => left; simp [TodoService.create_todo, TodoRepository.create, hv, h1, h2]
      | ok de =>
        right
        refine ⟨⟨s.nextId, ti, de, d.completed, d.end_date, now, now⟩, by simp, ?_⟩
        simp [TodoService.create_todo, TodoRepository.create, hv, h1, h2]

theorem update_todo_store_cases (s : TodoStore) (todo_id : Int) (d : TodoUpdate) (now : Int) :
    (TodoService.update_todo s todo_id d now).2 = s ∨
    ∃ t t0, TodoRepository.get_by_id s todo_id = some t ∧
      TodoRepository.applyUpdate t d = Except.ok t0 ∧
      (TodoService.update_todo s todo_id d now).2.rows
        = s.rows.map (fun r => if r.id = todo_id then { t0 with updated_at := now } else r) := by
  by_cases hpos : todo_id ≤ 0
  · left
    simp [TodoService.update_todo, TodoService.validate_todo_id, hpos]
  cases hv2 : TodoService.validate_todo_update d with
  | error m =>
    left
    simp [TodoService.update_todo, TodoService.validate_todo_id, hpos, hv2]
  | ok u =>
    cases u
    cases hf : TodoRepository.get_by_id s todo_id with
    | none =>
      left
      simp [TodoService.update_todo, TodoService.validate_todo_id, hpos, hv2, hf]
    | some t =>
      cases ha : TodoRepository.applyUpdate t d with
      | error m =>
        left
        simp [TodoService.update_todo, TodoService.validate_todo_id, TodoRepository.update,
          hpos, hv2, hf, ha]
      | ok t0 =>
        by_cases hne : t0 = t
        · left
          rw [update_todo_noop_eq now hpos hv2 hf ha hne]
        · right
          refine ⟨t, t0, rfl, ha, ?_⟩
          rw [update_todo_ok_eq now hpos hv2 hf ha hne]

theorem delete_todo_store_cases (s : TodoStore) (todo_id : Int) :
    (TodoService.delete_todo s todo_id).2 = s ∨
    (TodoService.delete_todo s todo_id).2.rows
      = s.rows.filter (fun r => !(r.id == todo_id)) := by
  by_cases hpos : todo_id ≤ 0
  · left
    simp [TodoService.delete_todo, TodoService.validate_todo_id, hpos]
  cases hf : TodoRepository.get_by_id s todo_id with
  | none =>
    left
    simp [TodoService.delete_todo, TodoService.validate_todo_id, hpos, hf]
  | some t =>
    right
    simp [TodoService.delete_todo, TodoService.validate_todo_id, TodoRepository.delete,
      hpos, hf]

/-- C9: in every store reachable through create, update and delete, a
present description is trimmed and never the empty string; and a create
whose supplied description is empty after trimming stores null, while
any other supplied description is stored trimmed. -/
theorem description_never_empty_at_rest :
    (∀ s, Reachable s → ∀ t ∈ s.rows, ∀ dsc, t.description = some dsc →
      pstrip dsc = dsc ∧ dsc ≠ []) ∧
    (∀ (s : TodoStore) (d : TodoCreate) (now : Int) (t : Todo) (s1 : TodoStore),
      TodoService.create_todo s d now = (Except.ok t, s1) →
      ∀ raw, d.description = some raw →
        (pstrip raw = [] → t.description = none) ∧
        (pstrip raw ≠ [] → t.description = some (pstrip raw))) := by
  constructor
  · intro s hreach
    induction hreach with
    | empty =>
      intro t ht
      simp at ht
    | create s0 d now hr ih =>
      rcases create_todo_store_cases s0 d now with hcase | ⟨tn, hval, hrows⟩
      · rw [hcase]
        exact ih
      · intro t ht dsc hdsc
        rw [hrows] at ht
        rcases List.mem_append.mp ht with hold | hnew
        · exact ih t hold dsc hdsc
        · have htn : t = tn := by simpa using hnew
          subst htn
          rw [hdsc] at hval
          exact validate_description_ok_some hval
    | update s0 todo_id d now hr ih =>
      rcases update_todo_store_cases s0 todo_id d now with hcase | ⟨tf, t0, hf, ha, hrows⟩
      · rw [hcase]
        exact ih
      · intro t ht dsc hdsc
        rw [hrows] at ht
        rcases List.mem_map.mp ht with ⟨r, hrmem, hreq⟩
        by_cases hcond : r.id = todo_id
        · rw [if_pos hcond] at hreq
          subst hreq
          have hdsc0 : t0.description = some dsc := by simpa using hdsc
          obtain ⟨_, _, _, _, _, dn, ds, _, _, _, _⟩ := applyUpdate_ok_spec ha
          cases hdd : d.description with
          | none =>
            have hmem := List.mem_of_find?_eq_some hf
            refine ih tf hmem dsc ?_
            rw [← dn hdd]
            exact hdsc0
          | some v =>
            have h4 := ds v hdd
            rw [hdsc0] at h4
            exact validate_description_ok_some h4
        · rw [if_neg hcond] at hreq
          subst hreq
          exact ih r hrmem dsc hdsc
    | delete s0 todo_id hr ih =>
      rcases delete_todo_store_cases s0 todo_id with hcase | hrows
      · rw [hcase]
        exact ih
      · intro t ht dsc hdsc
        rw [hrows] at ht
        exact ih t (List.mem_of_mem_filter ht) dsc hdsc
  · intro s d now t s1 h raw hraw
    obtain ⟨hval, _⟩ := create_todo_ok_elim h
    rw [hraw] at hval
    unfold Todo.validate_description at hval
    simp only at hval
    split_ifs at hval with g1 g2
    · refine ⟨fun _ => ?_, fun hne => absurd g2 hne⟩
      injection hval with h2
      exact h2.symm
    · refine ⟨fun hps => absurd hps g2, fun _ => ?_⟩
      injection hval with h2
      exact h2.symm

/-- C9 witness: a record created with a whitespace-padded description in
a reachable store has it stored trimmed and non-empty. -/
theorem description_never_empty_at_rest_witness :
    pstrip ['x'] = ['x'] ∧ (['x'] : PyStr) ≠ [] :=
  description_never_empty_at_rest.1 _
    (Reachable.create ⟨[], 1⟩ ⟨['t'], some [' ', 'x'], false, none⟩ 3 Reachable.empty)
    ⟨1, ['t'], some ['x'], false, none, 3, 3⟩ (by decide) ['x'] (by decide)

end TodoApp
